import Mathlib

/-!
Verification of the access-control core of the `higher` relay.

The embedding follows the Go sources:
- `keyderivation/hdkey.go` (`CheckKeyBelongsToMaster`, `NewNostrKeyDeriverFromSeed`),
- `main.go` (`relay.RejectEvent`, `relay.RejectFilter`, `bl.RejectUpload`,
  `parseAllowedKinds`).

External library calls (NIP-19 decoding via `nip19.Decode`, BIP32 child
derivation via `DeriveKeyBIP32`/`DeriveKeySimple`) are kept as explicit
function parameters of the embedded control flow: the repository's own code
never inspects their internals, only their results, so every theorem below
quantifies over them (or pins them to a concrete value in witnesses).
-/

namespace Higher

/-- Error values that `CheckKeyBelongsToMaster` (keyderivation/hdkey.go) can
return: `unsupportedNip19 pfx` models `fmt.Errorf("unsupported NIP-19 format: %s", prefix)`
and `deriveFailed i msg` models `fmt.Errorf("failed to derive key at index %d: %v", i, err)`.
The source has no further error returns in this function. -/
inductive CheckErr where
  | unsupportedNip19 (pfx : String) : CheckErr
  | deriveFailed (i : Nat) (msg : String) : CheckErr
deriving DecidableEq

/-- Rendering of a `CheckErr` as the Go error string (used by `RejectFilter`,
which interpolates the error with `%v`). -/
def CheckErr.toMessage : CheckErr → String
  | .unsupportedNip19 pfx => "unsupported NIP-19 format: " ++ pfx
  | .deriveFailed i msg => "failed to derive key at index " ++ toString i ++ ": " ++ msg

/-- Embeds the search loop of `CheckKeyBelongsToMaster`
(`for i := uint32(0); i <= maxIndex; i++`): starting at index `i` with `fuel`
indices left to try, derive each index and compare the derived public key with
`targetPubKey`; a derivation error aborts with `deriveFailed`, the first match
returns `(true, i, none)`, exhaustion returns `(false, 0, none)` — the Go
function's `(bool, uint32, error)` triple. `derive` models
`DeriveKeyBIP32`/`DeriveKeySimple`, reduced to the only field the loop reads,
the derived public key hex. -/
def searchFrom (derive : Nat → Except String String) (targetPubKey : String) :
    Nat → Nat → Bool × Nat × Option CheckErr
  | _, 0 => (false, 0, none)
  | i, fuel + 1 =>
    match derive i with
    | .error msg => (false, 0, some (.deriveFailed i msg))
    | .ok pub =>
      if pub = targetPubKey then (true, i, none)
      else searchFrom derive targetPubKey (i + 1) fuel

/-- Embeds `CheckKeyBelongsToMaster(targetKey, maxIndex, useBIP32)` from
keyderivation/hdkey.go. `nip19Decode` models `nip19.Decode`: `some (pfx, data)`
on success (`pfx` the human-readable part, `data` the decoded hex string),
`none` when decoding errors. On a successful decode with `pfx = "npub"` the
decoded value is searched; any other successfully decoded format is an
`unsupportedNip19` error; a failed decode falls through to treating
`targetKey` itself as hex. The loop then scans indices `0..maxIndex`
inclusive. Note the source never compares `targetKey` against the root master
public key of `GetMasterKeyPair`; only derived child indices are scanned. -/
def CheckKeyBelongsToMaster (nip19Decode : String → Option (String × String))
    (derive : Nat → Except String String) (targetKey : String) (maxIndex : Nat) :
    Bool × Nat × Option CheckErr :=
  match nip19Decode targetKey with
  | some (pfx, decoded) =>
    if pfx = "npub" then searchFrom derive decoded 0 (maxIndex + 1)
    else (false, 0, some (.unsupportedNip19 pfx))
  | none => searchFrom derive targetKey 0 (maxIndex + 1)

/-- Embeds the allowed-kinds block at the end of `relay.RejectEvent` (main.go):
when `len(config.AllowedKinds) > 0`, the event kind must appear in the list,
otherwise the event is rejected with "event kind %d is not allowed"; with an
empty list the block is skipped and the function returns `(false, "")`. -/
def kindGate (allowedKinds : List Int) (kind : Int) : Bool × String :=
  if 0 < allowedKinds.length then
    if allowedKinds.contains kind then (false, "")
    else (true, "event kind " ++ toString kind ++ " is not allowed")
  else (false, "")

/-- Embeds the `relay.RejectEvent` closure from main.go. `deriverConfigured`
models `deriver != nil`; `check pubKey` models the call
`deriver.CheckKeyBelongsToMaster(event.PubKey, uint32(config.MaxDerivationIndex), true)`
returning its full `(bool, uint32, error)` triple — the closure keeps only the
boolean (the error is logged and otherwise ignored). `rosterNames` models the
values of `data.Names` (the roster fetched from TEAM_DOMAIN). The roster
block runs only when `config.TeamDomain != ""` and the key does not belong to
master; then the kind gate runs unconditionally. -/
def RejectEvent (deriverConfigured : Bool) (check : String → Bool × Nat × Option CheckErr)
    (teamDomain : String) (rosterNames : List String) (allowedKinds : List Int)
    (pubKey : String) (kind : Int) : Bool × String :=
  let belongsToMaster := if deriverConfigured then (check pubKey).1 else false
  if teamDomain ≠ "" ∧ belongsToMaster = false then
    if rosterNames.contains pubKey then kindGate allowedKinds kind
    else (true, "you are not part of the team")
  else kindGate allowedKinds kind

/-- Embeds the author loop of the `relay.RejectFilter` closure (main.go):
for each author, a check error rejects with the interpolated error message, a
non-belonging author rejects with "author not allowed by read restrictions",
and reaching the end of the loop allows with `(false, "")`. -/
def checkAuthorsLoop (check : String → Bool × Nat × Option CheckErr) :
    List String → Bool × String
  | [] => (false, "")
  | a :: rest =>
    match (check a).2.2 with
    | some e => (true, "error validating author: " ++ e.toMessage)
    | none =>
      if (check a).1 = false then (true, "author not allowed by read restrictions")
      else checkAuthorsLoop check rest

/-- Embeds the `relay.RejectFilter` closure registered when
`config.ReadsRestricted` is set (main.go): a nil deriver rejects outright, a
non-empty author list is validated author by author, and an empty author list
rejects broad reads. -/
def RejectFilter (deriverConfigured : Bool) (check : String → Bool × Nat × Option CheckErr)
    (filterAuthors : List String) : Bool × String :=
  if deriverConfigured = false then
    (true, "reads are restricted but key deriver is not configured")
  else if 0 < filterAuthors.length then
    checkAuthorsLoop check filterAuthors
  else (true, "reads restricted: specify allowed authors")

/-- Two's-complement wrap-around of Go's 64-bit `int` arithmetic, applied to
the product `config.MaxUploadSizeMB * 1024 * 1024` in `bl.RejectUpload`. -/
def wrap64 (x : Int) : Int := (x + 2 ^ 63) % 2 ^ 64 - 2 ^ 63

/-- Embeds the `bl.RejectUpload` closure (main.go), returning the Go triple
`(reject bool, reason string, code int)` — on allow it returns
`(false, ext, size)`. The size ceiling is checked first; then, when
`config.TeamDomain != ""`, the uploader's pubkey must appear among the roster
values or the upload is rejected with 403; with no team domain the upload is
allowed. The closure never calls `CheckKeyBelongsToMaster`, so the embedding
takes no membership parameter. -/
def RejectUpload (maxUploadSizeMB : Int) (teamDomain : String) (rosterNames : List String)
    (pubKey : String) (size : Int) (ext : String) : Bool × String × Int :=
  let maxSize := wrap64 (maxUploadSizeMB * 1024 * 1024)
  if maxSize < size then
    (true, "file size exceeds " ++ toString maxUploadSizeMB ++ "MB limit", 413)
  else if teamDomain ≠ "" then
    if rosterNames.contains pubKey then (false, ext, size)
    else (true, "you are not part of the team", 403)
  else (false, ext, size)

/-- Go's `asciiSpace` set as trimmed by `strings.TrimSpace` for ASCII input:
space, tab, newline, vertical tab, form feed, carriage return. -/
def goSpace (c : Char) : Bool :=
  c == ' ' || c == '\t' || c == '\n' || c == Char.ofNat 11 || c == Char.ofNat 12 || c == '\r'

/-- Embeds `strings.TrimSpace` (leading and trailing whitespace removed). -/
def trimSpace (s : String) : String :=
  String.mk (((s.data.dropWhile goSpace).reverse.dropWhile goSpace).reverse)

/-- Embeds `strings.Split(s, ",")` on the character list of `s`: splits at
every comma, keeping empty fragments; `acc` accumulates the current fragment
in reverse. -/
def splitComma : List Char → List Char → List String
  | [], acc => [String.mk acc.reverse]
  | c :: rest, acc =>
    if c = ',' then String.mk acc.reverse :: splitComma rest []
    else splitComma rest (c :: acc)

/-- Embeds `strconv.Atoi`: an optional single leading sign followed by at
least one decimal digit, with the value required to fit a 64-bit `int`;
anything else is an error (`none`). -/
def atoi (s : String) : Option Int :=
  match s.data with
  | [] => none
  | c :: rest =>
    let signDigits : Bool × List Char :=
      if c = '-' then (true, rest)
      else if c = '+' then (false, rest)
      else (false, c :: rest)
    if signDigits.2 = [] then none
    else if signDigits.2.all (fun d => d.isDigit) then
      let n : Nat := signDigits.2.foldl (fun a d => a * 10 + (d.toNat - 48)) 0
      let v : Int := if signDigits.1 then -(n : Int) else (n : Int)
      if -(2 ^ 63) ≤ v ∧ v < 2 ^ 63 then some v else none
    else none

/-- Embeds the body of the `for _, kindStr := range kindStrings` loop of
`parseAllowedKinds` (main.go): the fragment is trimmed, a blank fragment is
skipped with `continue`, an unparseable fragment is skipped with a logged
warning, and a parsed kind is appended. -/
def parseKindsStep (kinds : List Int) (kindStr : String) : List Int :=
  let t := trimSpace kindStr
  if t = "" then kinds
  else
    match atoi t with
    | none => kinds
    | some k => kinds ++ [k]

/-- Embeds `parseAllowedKinds` (main.go): a nil or blank `ALLOWED_KINDS`
yields the empty list; otherwise the trimmed string is split on commas and
the fragments are folded with `parseKindsStep`. -/
def parseAllowedKinds (allowedKindsStr : Option String) : List Int :=
  match allowedKindsStr with
  | none => []
  | some s =>
    if trimSpace s = "" then []
    else
      let kindStrings := splitComma (trimSpace s).data []
      List.foldl parseKindsStep [] kindStrings

/-- Models `hdkeychain.NewMaster` from the btcd library (the external
dependency called by `NewNostrKeyDeriverFromSeed` and by the mnemonic
constructor): per its documented contract it fails with `ErrInvalidSeedLen`
for any seed shorter than `MinSeedBytes` (16 bytes) or longer than
`MaxSeedBytes` (64 bytes); within that range it succeeds (the
cryptographically negligible invalid-master-HMAC case, independent of seed
length, is modelled as success). -/
def hdkeychainNewMaster (seed : List Nat) : Except String Unit :=
  if seed.length < 16 ∨ 64 < seed.length then
    .error "seed length must be between 128 and 512 bits"
  else .ok ()

/-- Embeds `NewNostrKeyDeriverFromSeed` (keyderivation/hdkey.go): the seed
bytes are handed to `hdkeychain.NewMaster` without any prior length
validation of the repository's own; an error is wrapped with
"failed to create master key: ", success stores the seed in the deriver
(modelled by returning it). -/
def NewNostrKeyDeriverFromSeed (seed : List Nat) : Except String (List Nat) :=
  match hdkeychainNewMaster seed with
  | .error e => .error ("failed to create master key: " ++ e)
  | .ok _ => .ok seed

/-- Auxiliary: a successful search result lies at or after the start index. -/
theorem searchFrom_le {derive : Nat → Except String String} {t : String} :
    ∀ {f s i : Nat}, searchFrom derive t s f = (true, i, none) → s ≤ i := by
  intro f
  induction f with
  | zero =>
    intro s i h
    simp [searchFrom] at h
  | succ f ih =>
    intro s i h
    cases hd : derive s with
    | error msg =>
      simp [searchFrom, hd] at h
    | ok pub =>
      simp only [searchFrom, hd] at h
      by_cases hp : pub = t
      · rw [if_pos hp] at h
        have : s = i := by
          have := congrArg (fun r => r.2.1) h
          simpa using this
        omega
      · rw [if_neg hp] at h
        exact Nat.le_of_succ_le (ih h)

/-- Auxiliary: once the search has found a match at index `i`, any fuel large
enough to reach `i` finds the very same match (the scan is deterministic and
`i` is the first matching index at or after the start). -/
theorem searchFrom_mono {derive : Nat → Except String String} {t : String} :
    ∀ {f s i : Nat}, searchFrom derive t s f = (true, i, none) →
      ∀ {f' : Nat}, i < s + f' → searchFrom derive t s f' = (true, i, none) := by
  intro f
  induction f with
  | zero =>
    intro s i h
    simp [searchFrom] at h
  | succ f ih =>
    intro s i h f' hf
    cases hd : derive s with
    | error msg =>
      simp [searchFrom, hd] at h
    | ok pub =>
      simp only [searchFrom, hd] at h
      by_cases hp : pub = t
      · rw [if_pos hp] at h
        have hsi : s = i := by
          have := congrArg (fun r => r.2.1) h
          simpa using this
        subst hsi
        obtain ⟨g, rfl⟩ : ∃ g, f' = g + 1 := ⟨f' - 1, by omega⟩
        simp only [searchFrom, hd, if_pos hp]
      · rw [if_neg hp] at h
        have hs1 : s + 1 ≤ i := searchFrom_le h
        obtain ⟨g, rfl⟩ : ∃ g, f' = g + 1 := ⟨f' - 1, by omega⟩
        simp only [searchFrom, hd, if_neg hp]
        exact ih h (by omega)

/-- Claim C8: membership search is monotone in the bound — when
`CheckKeyBelongsToMaster` run with bound `b` finds a match at index `i`, the
same key checked with any bound `b' ≥ i` matches at the same index `i`. -/
theorem checkKeyBelongsToMaster_monotone
    (nip19Decode : String → Option (String × String))
    (derive : Nat → Except String String) (targetKey : String) (b b' i : Nat)
    (h : CheckKeyBelongsToMaster nip19Decode derive targetKey b = (true, i, none))
    (hb : i ≤ b') :
    CheckKeyBelongsToMaster nip19Decode derive targetKey b' = (true, i, none) := by
  cases hdec : nip19Decode targetKey with
  | none =>
    simp only [CheckKeyBelongsToMaster, hdec] at h ⊢
    exact searchFrom_mono h (by omega)
  | some pd =>
    obtain ⟨pfx, decoded⟩ := pd
    simp only [CheckKeyBelongsToMaster, hdec] at h ⊢
    by_cases hp : pfx = "npub"
    · rw [if_pos hp] at h ⊢
      exact searchFrom_mono h (by omega)
    · rw [if_neg hp] at h
      simp at h

/-- Witness for C8 at a concrete instance: the derive stub maps index `i` to
the string of `i`; searching for "1" with bound 1 matches at index 1, and the
match persists at bound 5. -/
theorem checkKeyBelongsToMaster_monotone_witness :
    CheckKeyBelongsToMaster (fun _ => none) (fun i => .ok (toString i)) "1" 5
      = (true, 1, none) :=
  checkKeyBelongsToMaster_monotone (fun _ => none) (fun i => .ok (toString i))
    "1" 1 5 1 (by decide) (by decide)

/-- Auxiliary: when no successfully derived key ever equals the target, the
search never reports a match (whatever the window). -/
theorem searchFrom_no_match {derive : Nat → Except String String} {t : String}
    (hne : ∀ i p, derive i = Except.ok p → p ≠ t) :
    ∀ (f s : Nat), (searchFrom derive t s f).1 = false := by
  intro f
  induction f with
  | zero => intro s; rfl
  | succ f ih =>
    intro s
    cases hd : derive s with
    | error msg => simp [searchFrom, hd]
    | ok pub =>
      have hp : ¬ pub = t := hne s pub hd
      simp only [searchFrom, hd, if_neg hp]
      exact ih (s + 1)

/-- Auxiliary: when every index of the window derives successfully to a key
different from the target, the search ends in the plain miss `(false, 0, none)`. -/
theorem searchFrom_all_miss {derive : Nat → Except String String} {t : String} :
    ∀ (f s : Nat), (∀ j, s ≤ j → j < s + f → ∃ p, derive j = Except.ok p ∧ p ≠ t) →
      searchFrom derive t s f = (false, 0, none) := by
  intro f
  induction f with
  | zero => intro s _; rfl
  | succ f ih =>
    intro s h
    obtain ⟨p, hp, hne⟩ := h s (Nat.le_refl s) (by omega)
    simp only [searchFrom, hp, if_neg hne]
    exact ih (s + 1) (fun j hj1 hj2 => h j (by omega) (by omega))

/-- Auxiliary: a search result is either not a match or carries no error. -/
theorem searchFrom_shape {derive : Nat → Except String String} {t : String} :
    ∀ (f s : Nat), (searchFrom derive t s f).1 = false
      ∨ (searchFrom derive t s f).2.2 = none := by
  intro f
  induction f with
  | zero => intro s; exact Or.inl rfl
  | succ f ih =>
    intro s
    cases hd : derive s with
    | error msg => exact Or.inl (by simp [searchFrom, hd])
    | ok pub =>
      by_cases hp : pub = t
      · exact Or.inr (by simp [searchFrom, hd, hp])
      · simp only [searchFrom, hd, if_neg hp]
        exact ih (s + 1)

/-- Auxiliary: the full check is either not a match or carries no error. -/
theorem checkKeyBelongsToMaster_shape (nip19Decode : String → Option (String × String))
    (derive : Nat → Except String String) (t : String) (b : Nat) :
    (CheckKeyBelongsToMaster nip19Decode derive t b).1 = false
      ∨ (CheckKeyBelongsToMaster nip19Decode derive t b).2.2 = none := by
  cases hdec : nip19Decode t with
  | none =>
    simp only [CheckKeyBelongsToMaster, hdec]
    exact searchFrom_shape (b + 1) 0
  | some pd =>
    obtain ⟨pfx, decoded⟩ := pd
    simp only [CheckKeyBelongsToMaster, hdec]
    by_cases hp : pfx = "npub"
    · rw [if_pos hp]
      exact searchFrom_shape (b + 1) 0
    · rw [if_neg hp]
      exact Or.inl rfl

/-- Auxiliary: whenever the check returns an error, its boolean is `false` —
every error return of `CheckKeyBelongsToMaster` in the source carries `false`. -/
theorem checkKeyBelongsToMaster_error_not_belongs
    (nip19Decode : String → Option (String × String))
    (derive : Nat → Except String String) (t : String) (b : Nat) (e : CheckErr)
    (h : (CheckKeyBelongsToMaster nip19Decode derive t b).2.2 = some e) :
    (CheckKeyBelongsToMaster nip19Decode derive t b).1 = false := by
  rcases checkKeyBelongsToMaster_shape nip19Decode derive t b with hf | hn
  · exact hf
  · rw [hn] at h
    exact absurd h (by simp)

/-- Claim C2 (code_bug evidence): `CheckKeyBelongsToMaster` performs no
comparison against the root master public key. Whenever a candidate (such as
the root key of `GetMasterKeyPair`, whose hex form is not valid NIP-19 and
which differs from every derived child key) matches no derived key, the check
returns `belongs = false` for every bound — contradicting the documented
behaviour that the master key is compared first and recognized at index 0. -/
theorem checkKeyBelongsToMaster_ignores_root_master
    (nip19Decode : String → Option (String × String))
    (derive : Nat → Except String String) (masterPub : String) (b : Nat)
    (hdec : nip19Decode masterPub = none)
    (hne : ∀ i p, derive i = Except.ok p → p ≠ masterPub) :
    (CheckKeyBelongsToMaster nip19Decode derive masterPub b).1 = false := by
  simp only [CheckKeyBelongsToMaster, hdec]
  exact searchFrom_no_match hne (b + 1) 0

/-- Witness for C2's theorem at a concrete instance: a root master key
distinct from every derived child key is reported as not belonging at
bound 100. -/
theorem checkKeyBelongsToMaster_ignores_root_master_witness :
    (CheckKeyBelongsToMaster (fun _ => none) (fun _ => Except.ok "derivedchild")
      "rootmasterpub" 100).1 = false :=
  checkKeyBelongsToMaster_ignores_root_master (fun _ => none)
    (fun _ => Except.ok "derivedchild") "rootmasterpub" 100 rfl
    (fun _ p h => by injection h with h2; rw [← h2]; decide)

/-- Claim C3 (counterexample): a candidate key that fails NIP-19 decoding is
not rejected with any error category at all — here a decode-failing,
non-matching candidate yields the plain not-a-member triple
`(false, 0, none)`, with no `MalformedKey`-style error distinguishing it. -/
theorem checkKeyBelongsToMaster_no_malformed_error_counterexample :
    CheckKeyBelongsToMaster (fun _ => none) (fun _ => Except.ok "00") "not a key" 3
      = (false, 0, none) := by
  decide

/-- Claim C3 (amended): a candidate that fails NIP-19 decoding is treated as a
hex key; when no derived key within the bound matches it, the check returns
the plain not-a-member result `(false, 0, none)` with no error. The only
distinct error category for malformed candidates is the unsupported-NIP-19
error, produced when the candidate decodes successfully with a non-`npub`
human-readable part. -/
theorem checkKeyBelongsToMaster_malformed_behaviour :
    (∀ (nip19Decode : String → Option (String × String))
        (derive : Nat → Except String String) (t : String) (b : Nat),
      nip19Decode t = none →
      (∀ i, i ≤ b → ∃ p, derive i = Except.ok p ∧ p ≠ t) →
      CheckKeyBelongsToMaster nip19Decode derive t b = (false, 0, none))
    ∧ (∀ (nip19Decode : String → Option (String × String))
        (derive : Nat → Except String String) (t : String) (b : Nat)
        (pfx payload : String),
      nip19Decode t = some (pfx, payload) → pfx ≠ "npub" →
      CheckKeyBelongsToMaster nip19Decode derive t b
        = (false, 0, some (.unsupportedNip19 pfx))) := by
  constructor
  · intro nip19Decode derive t b hdec hmiss
    simp only [CheckKeyBelongsToMaster, hdec]
    exact searchFrom_all_miss (b + 1) 0 (fun j _ hj => hmiss j (by omega))
  · intro nip19Decode derive t b pfx payload hdec hp
    simp only [CheckKeyBelongsToMaster, hdec, if_neg hp]

/-- Witness for C3's amended theorem at concrete instances: a decode-failing
non-matching candidate yields `(false, 0, none)`, and a decoded `nsec` value
yields the distinct unsupported-NIP-19 error. -/
theorem checkKeyBelongsToMaster_malformed_behaviour_witness :
    CheckKeyBelongsToMaster (fun _ => none) (fun _ => Except.ok "00") "zz" 1
      = (false, 0, none)
    ∧ CheckKeyBelongsToMaster (fun _ => some ("nsec", "yy"))
        (fun _ => Except.ok "00") "zz" 1
      = (false, 0, some (.unsupportedNip19 "nsec")) :=
  ⟨checkKeyBelongsToMaster_malformed_behaviour.1 (fun _ => none)
      (fun _ => Except.ok "00") "zz" 1 rfl
      (fun _ _ => ⟨"00", rfl, by decide⟩),
    checkKeyBelongsToMaster_malformed_behaviour.2 (fun _ => some ("nsec", "yy"))
      (fun _ => Except.ok "00") "zz" 1 "nsec" "yy" rfl (by decide)⟩

/-- Claim C9: `RejectEvent` swallows membership-check errors. When the check
for the event's pubkey returns an error, the write policy behaves exactly as
if no deriver were configured (the pubkey is treated as not belonging to
master) and evaluation continues with the roster and kind checks; no fault is
ever propagated — the function is total. -/
theorem rejectEvent_swallows_check_error
    (nip19Decode : String → Option (String × String))
    (derive : Nat → Except String String) (mi : Nat) (teamDomain : String)
    (rosterNames : List String) (allowedKinds : List Int) (pubKey : String)
    (kind : Int) (e : CheckErr)
    (h : (CheckKeyBelongsToMaster nip19Decode derive pubKey mi).2.2 = some e) :
    RejectEvent true (fun k => CheckKeyBelongsToMaster nip19Decode derive k mi)
        teamDomain rosterNames allowedKinds pubKey kind
      = RejectEvent false (fun k => CheckKeyBelongsToMaster nip19Decode derive k mi)
        teamDomain rosterNames allowedKinds pubKey kind := by
  have hb := checkKeyBelongsToMaster_error_not_belongs nip19Decode derive pubKey mi e h
  simp [RejectEvent, hb]

/-- Witness for C9 at a concrete instance: a check failing with the
unsupported-NIP-19 error leaves the write policy identical to the
deriver-less evaluation. -/
theorem rejectEvent_swallows_check_error_witness :
    RejectEvent true
        (fun k => CheckKeyBelongsToMaster (fun _ => some ("nsec", "aa"))
          (fun _ => Except.ok "k") k 0) "team.example" [] [1] "pk" 2
      = RejectEvent false
        (fun k => CheckKeyBelongsToMaster (fun _ => some ("nsec", "aa"))
          (fun _ => Except.ok "k") k 0) "team.example" [] [1] "pk" 2 :=
  rejectEvent_swallows_check_error (fun _ => some ("nsec", "aa"))
    (fun _ => Except.ok "k") 0 "team.example" [] [1] "pk" 2
    (.unsupportedNip19 "nsec") rfl

/-- Claim C1 (code_bug evidence): `bl.RejectUpload` never consults the
membership oracle. With a team domain configured, every uploader whose pubkey
is not among the roster values is denied with status 403 — including pubkeys
the oracle would recognize as master-derived — whenever the size gate passes.
The embedding of the closure takes no membership parameter because the source
closure never references `deriver`. -/
theorem rejectUpload_ignores_membership
    (maxUploadSizeMB : Int) (teamDomain : String) (pubKey : String) (size : Int)
    (ext : String) (hdom : teamDomain ≠ "")
    (hsize : ¬ wrap64 (maxUploadSizeMB * 1024 * 1024) < size) :
    RejectUpload maxUploadSizeMB teamDomain [] pubKey size ext
      = (true, "you are not part of the team", 403) := by
  simp [RejectUpload, hsize, hdom]

/-- Witness for C1's theorem at a concrete instance: in team mode with an
empty roster, a within-limit upload from an arbitrary (e.g. master-derived)
pubkey is denied 403. -/
theorem rejectUpload_ignores_membership_witness :
    RejectUpload 200 "team.example" [] "deadbeef" 10 "png"
      = (true, "you are not part of the team", 403) :=
  rejectUpload_ignores_membership 200 "team.example" "deadbeef" 10 "png"
    (by decide) (by decide)

/-- Claim C6: the upload size gate runs first and is independent of identity
and roster. Whenever the size exceeds the configured ceiling, `RejectUpload`
denies with status 413 for every team-domain setting, roster content and
pubkey — in particular for the master identity itself. -/
theorem rejectUpload_size_gate_first
    (maxUploadSizeMB : Int) (teamDomain : String) (rosterNames : List String)
    (pubKey : String) (size : Int) (ext : String)
    (h : wrap64 (maxUploadSizeMB * 1024 * 1024) < size) :
    RejectUpload maxUploadSizeMB teamDomain rosterNames pubKey size ext
      = (true, "file size exceeds " ++ toString maxUploadSizeMB ++ "MB limit", 413) := by
  simp [RejectUpload, h]

/-- Witness for C6 at a concrete instance: an uploader present in the roster
(standing for the master identity) is still denied 413 when oversized. -/
theorem rejectUpload_size_gate_first_witness :
    RejectUpload 1 "team.example" ["masterkey"] "masterkey" 1048577 "png"
      = (true, "file size exceeds " ++ toString (1 : Int) ++ "MB limit", 413) :=
  rejectUpload_size_gate_first 1 "team.example" ["masterkey"] "masterkey" 1048577
    "png" (by decide)

/-- Auxiliary: `RejectEvent` either rejects at the roster stage or falls
through to the kind gate — these are its only two outcomes. -/
theorem rejectEvent_cases (dc : Bool) (check : String → Bool × Nat × Option CheckErr)
    (teamDomain : String) (rosterNames : List String) (allowedKinds : List Int)
    (pubKey : String) (kind : Int) :
    RejectEvent dc check teamDomain rosterNames allowedKinds pubKey kind
      = (true, "you are not part of the team")
    ∨ RejectEvent dc check teamDomain rosterNames allowedKinds pubKey kind
      = kindGate allowedKinds kind := by
  simp only [RejectEvent]
  by_cases h1 : teamDomain ≠ "" ∧ (if dc then (check pubKey).1 else false) = false
  · rw [if_pos h1]
    by_cases h2 : rosterNames.contains pubKey = true
    · rw [if_pos h2]
      exact Or.inr rfl
    · rw [if_neg h2]
      exact Or.inl rfl
  · rw [if_neg h1]
    exact Or.inr rfl

/-- Claim C5: the kind allow-list gate composes with master descent. With a
non-empty allow-list and a pubkey the membership check recognizes, a
disallowed kind is denied with the kind-not-allowed reason (master descent
bypasses the roster check, never the kind check) and an allowed kind is
allowed; moreover every event with a disallowed kind is rejected regardless
of membership and roster. -/
theorem rejectEvent_kind_gate_composes
    (check : String → Bool × Nat × Option CheckErr) (teamDomain : String)
    (rosterNames : List String) (allowedKinds : List Int) (pubKey : String)
    (kind : Int) (hb : (check pubKey).1 = true) (hne : allowedKinds ≠ []) :
    (allowedKinds.contains kind = false →
      RejectEvent true check teamDomain rosterNames allowedKinds pubKey kind
        = (true, "event kind " ++ toString kind ++ " is not allowed"))
    ∧ (allowedKinds.contains kind = true →
      RejectEvent true check teamDomain rosterNames allowedKinds pubKey kind
        = (false, ""))
    ∧ (∀ (dc : Bool) (check2 : String → Bool × Nat × Option CheckErr) (pk2 : String),
        allowedKinds.contains kind = false →
        (RejectEvent dc check2 teamDomain rosterNames allowedKinds pk2 kind).1
          = true) := by
  have hlen : 0 < allowedKinds.length := by
    cases allowedKinds with
    | nil => exact absurd rfl hne
    | cons a l => simp
  refine ⟨?_, ?_, ?_⟩
  · intro hc
    have hmem : kind ∉ allowedKinds := by simpa using hc
    simp [RejectEvent, hb, kindGate, hlen, hmem]
  · intro hc
    have hmem : kind ∈ allowedKinds := by simpa using hc
    simp [RejectEvent, hb, kindGate, hlen, hmem]
  · intro dc check2 pk2 hc
    have hmem : kind ∉ allowedKinds := by simpa using hc
    have hk : (kindGate allowedKinds kind).1 = true := by
      simp [kindGate, hlen, hmem]
    rcases rejectEvent_cases dc check2 teamDomain rosterNames allowedKinds pk2 kind
      with h | h
    · rw [h]
    · rw [h]
      exact hk

/-- Witness for C5 at the spec's own test instance: allow-list `[1]`, a
belonging pubkey, kind 2 denied with the kind reason, kind 1 allowed. -/
theorem rejectEvent_kind_gate_composes_witness :
    RejectEvent true (fun _ => (true, 0, none)) "team.example" [] [1] "master" 2
      = (true, "event kind " ++ toString (2 : Int) ++ " is not allowed")
    ∧ RejectEvent true (fun _ => (true, 0, none)) "team.example" [] [1] "master" 1
      = (false, "") :=
  ⟨(rejectEvent_kind_gate_composes (fun _ => (true, 0, none)) "team.example" []
      [1] "master" 2 rfl (by decide)).1 (by decide),
    (rejectEvent_kind_gate_composes (fun _ => (true, 0, none)) "team.example" []
      [1] "master" 1 rfl (by decide)).2.1 (by decide)⟩

/-- Auxiliary: the author loop allows exactly when every author's check
returns belongs with no error. -/
theorem checkAuthorsLoop_false_iff (check : String → Bool × Nat × Option CheckErr) :
    ∀ (l : List String), (checkAuthorsLoop check l).1 = false ↔
      ∀ a ∈ l, (check a).1 = true ∧ (check a).2.2 = none := by
  intro l
  induction l with
  | nil => simp [checkAuthorsLoop]
  | cons a rest ih =>
    cases he : (check a).2.2 with
    | some e => simp [checkAuthorsLoop, he]
    | none =>
      by_cases hb : (check a).1 = false
      · simp [checkAuthorsLoop, he, hb]
      · have hb' : (check a).1 = true := by
          revert hb
          cases (check a).1 <;> simp
        simp [checkAuthorsLoop, he, hb', ih]

/-- Claim C7: under read restriction, `RejectFilter` rejects when the deriver
is unconfigured (fail-closed), rejects an empty author list, and with a
non-empty author list allows exactly when every author's membership check
returns belongs with no error — any single failing author causes denial. -/
theorem rejectFilter_characterization
    (check : String → Bool × Nat × Option CheckErr) (filterAuthors : List String) :
    (RejectFilter false check filterAuthors).1 = true
    ∧ (RejectFilter true check []).1 = true
    ∧ (filterAuthors ≠ [] →
        ((RejectFilter true check filterAuthors).1 = false ↔
          ∀ a ∈ filterAuthors, (check a).1 = true ∧ (check a).2.2 = none)) := by
  refine ⟨rfl, rfl, ?_⟩
  intro hne
  have hlen : 0 < filterAuthors.length := by
    cases filterAuthors with
    | nil => exact absurd rfl hne
    | cons a l => simp
  simp only [RejectFilter]
  rw [if_neg (by simp), if_pos hlen]
  exact checkAuthorsLoop_false_iff check filterAuthors

/-- Witness for C7 at concrete instances: an unconfigured deriver rejects, an
empty author list rejects, a fully-belonging author list is allowed, and one
failing author causes denial. -/
theorem rejectFilter_characterization_witness :
    (RejectFilter false (fun _ => (true, 0, none)) ["a"]).1 = true
    ∧ (RejectFilter true (fun _ => (true, 0, none)) []).1 = true
    ∧ (RejectFilter true (fun _ => (true, 0, none)) ["a"]).1 = false
    ∧ (RejectFilter true (fun a => (a == "a", 0, none)) ["a", "b"]).1 ≠ false :=
  ⟨(rejectFilter_characterization (fun _ => (true, 0, none)) ["a"]).1,
    (rejectFilter_characterization (fun _ => (true, 0, none)) []).2.1,
    ((rejectFilter_characterization (fun _ => (true, 0, none)) ["a"]).2.2
      (by decide)).mpr (by decide),
    fun hfalse => by
      have := ((rejectFilter_characterization (fun a => (a == "a", 0, none))
        ["a", "b"]).2.2 (by decide)).mp hfalse "b" (by decide)
      simpa using this.1⟩

/-- Auxiliary: one fold step keeps the accumulator and appends the parsed
value of the trimmed fragment when there is one — a blank fragment behaves
exactly like an unparseable one since `atoi ""` is `none`. -/
theorem parseKindsStep_eq (acc : List Int) (p : String) :
    parseKindsStep acc p = acc ++ (atoi (trimSpace p)).toList := by
  by_cases ht : trimSpace p = ""
  · have h0 : atoi "" = none := rfl
    simp [parseKindsStep, ht, h0]
  · cases ha : atoi (trimSpace p) with
    | none => simp [parseKindsStep, ht, ha]
    | some k => simp [parseKindsStep, ht, ha]

/-- Auxiliary: the whole fold computes the accumulator followed by the
parseable trimmed fragments, in order. -/
theorem parseKinds_foldl_eq :
    ∀ (l : List String) (acc : List Int),
      List.foldl parseKindsStep acc l
        = acc ++ l.filterMap (fun p => atoi (trimSpace p)) := by
  intro l
  induction l with
  | nil => intro acc; simp
  | cons p rest ih =>
    intro acc
    rw [List.foldl_cons, ih, parseKindsStep_eq, List.filterMap_cons]
    cases ha : atoi (trimSpace p) with
    | none => simp [ha]
    | some k => simp [ha]

/-- Claim C10: allow-list parsing silently drops entries that are not valid
integers — the parsed list is exactly the parseable trimmed fragments; an
unset or blank `ALLOWED_KINDS` yields the empty list, and so does one with no
parseable entry; and with an empty allow-list `RejectEvent` applies no kind
restriction at all: its only possible rejection is the roster one, every kind
being allowed otherwise. -/
theorem parseAllowedKinds_empty_allows_all_kinds :
    parseAllowedKinds none = []
    ∧ (∀ s : String, parseAllowedKinds (some s)
        = if trimSpace s = "" then []
          else (splitComma (trimSpace s).data []).filterMap
            (fun p => atoi (trimSpace p)))
    ∧ (∀ s : String,
        (∀ p ∈ splitComma (trimSpace s).data [], atoi (trimSpace p) = none) →
        parseAllowedKinds (some s) = [])
    ∧ (∀ (dc : Bool) (check : String → Bool × Nat × Option CheckErr)
        (teamDomain : String) (rosterNames : List String) (pubKey : String)
        (kind : Int),
        RejectEvent dc check teamDomain rosterNames [] pubKey kind
          = (true, "you are not part of the team")
        ∨ RejectEvent dc check teamDomain rosterNames [] pubKey kind
          = (false, "")) := by
  have hchar : ∀ s : String, parseAllowedKinds (some s)
      = if trimSpace s = "" then []
        else (splitComma (trimSpace s).data []).filterMap
          (fun p => atoi (trimSpace p)) := by
    intro s
    by_cases ht : trimSpace s = ""
    · simp [parseAllowedKinds, ht]
    · simp only [parseAllowedKinds, if_neg ht]
      rw [parseKinds_foldl_eq]
      simp
  refine ⟨rfl, hchar, ?_, ?_⟩
  · intro s hall
    rw [hchar s]
    by_cases ht : trimSpace s = ""
    · rw [if_pos ht]
    · rw [if_neg ht]
      exact List.filterMap_eq_nil_iff.mpr hall
  · intro dc check teamDomain rosterNames pubKey kind
    rcases rejectEvent_cases dc check teamDomain rosterNames [] pubKey kind
      with h | h
    · exact Or.inl h
    · exact Or.inr h

/-- Witness for C10 at concrete inputs: a list with no parseable entry parses
to `[]`, and a mixed list keeps exactly the parseable entries. -/
theorem parseAllowedKinds_empty_allows_all_kinds_witness :
    parseAllowedKinds (some "x, y") = []
    ∧ parseAllowedKinds (some "1, x,2") = [1, 2] :=
  ⟨parseAllowedKinds_empty_allows_all_kinds.2.2.1 "x, y" (by decide),
    (parseAllowedKinds_empty_allows_all_kinds.2.1 "1, x,2").trans (by decide)⟩

/-- Claim C4 (counterexample): a raw seed of 16 bytes — a length different
from the fixed 32-byte length the configuration documents — still constructs
the deriver successfully: `NewNostrKeyDeriverFromSeed` performs no
fixed-length validation of its own, and the underlying
`hdkeychain.NewMaster` accepts any length in `[16, 64]`. -/
theorem newNostrKeyDeriverFromSeed_wrong_length_counterexample :
    (List.replicate 16 (0 : Nat)).length ≠ 32
    ∧ NewNostrKeyDeriverFromSeed (List.replicate 16 0)
        = Except.ok (List.replicate 16 0) :=
  ⟨by decide, rfl⟩

/-- Claim C4 (amended): constructing the deriver from a raw seed fails (with
the wrapped `hdkeychain.NewMaster` length error) exactly when the seed is
shorter than 16 bytes or longer than 64 bytes; every length within `[16, 64]`
— not only the documented 32 bytes — is accepted. -/
theorem newNostrKeyDeriverFromSeed_length_spec (seed : List Nat) :
    (∃ e, NewNostrKeyDeriverFromSeed seed = Except.error e)
      ↔ (seed.length < 16 ∨ 64 < seed.length) := by
  constructor
  · rintro ⟨e, he⟩
    by_contra hlen
    simp [NewNostrKeyDeriverFromSeed, hdkeychainNewMaster, hlen] at he
  · intro h
    refine ⟨"failed to create master key: "
      ++ "seed length must be between 128 and 512 bits", ?_⟩
    simp [NewNostrKeyDeriverFromSeed, hdkeychainNewMaster, h]

/-- Witness for C4's amended theorem at concrete inputs: an 8-byte seed is
rejected, and a 64-byte seed (the length the mnemonic path itself produces)
is accepted. -/
theorem newNostrKeyDeriverFromSeed_length_spec_witness :
    (∃ e, NewNostrKeyDeriverFromSeed (List.replicate 8 (0 : Nat))
        = Except.error e)
    ∧ ¬ ∃ e, NewNostrKeyDeriverFromSeed (List.replicate 64 (0 : Nat))
        = Except.error e :=
  ⟨(newNostrKeyDeriverFromSeed_length_spec (List.replicate 8 0)).mpr (by decide),
    fun hex =>
      by simpa using (newNostrKeyDeriverFromSeed_length_spec
        (List.replicate 64 0)).mp hex⟩

end Higher
